import Mathlib

/-!
Shallow embedding of the FOURCAST trading-cycle core:
the Trade Executor (trade-executor service), the Decision Engine's response
parser (ai-agents service), the Metrics computation, the Alert Engine
(alerts service) and the cycle orchestrator (scheduler service).

Monetary and price quantities are embedded as exact rationals (ℚ); the
source stores them as decimal strings and converts with parseFloat.
Stateful storage calls are embedded as explicit state passing over a
`Store` record mirroring the storage layer's tables.
-/

namespace Fourcast

/-- The three action tags accepted by the Decision Engine. -/
inductive TAction | BUY | SELL | HOLD
deriving DecidableEq, Repr

/-- Trade lifecycle status (schema: pending / executed / failed). -/
inductive TradeStatus | pending | executed | failed
deriving DecidableEq, Repr

/-- Canonical trade action (shared/schema TradeAction).  `side` is kept as a
raw string, as the parser passes it through unvalidated. -/
structure TradeAction where
  action : TAction
  market_id : String
  side : String
  size_usd : ℚ
  max_price : ℚ
  reasoning : String
deriving DecidableEq, Repr

/-- Agent row: the fields read by the executor and metrics code. -/
structure Agent where
  id : String
  initialBalance : ℚ
  currentBalance : ℚ
  isActive : Bool
deriving DecidableEq, Repr

/-- Market row: the fields read by the executor. -/
structure Market where
  id : String
  yesPrice : ℚ
  noPrice : ℚ
  liquidity : ℚ
  isResolved : Bool
deriving DecidableEq, Repr

/-- Trade row. -/
structure Trade where
  id : ℕ
  agentId : String
  marketId : String
  action : TAction
  side : String
  sizeUsd : ℚ
  price : ℚ
  shares : ℚ
  status : TradeStatus
  errorMessage : Option String
deriving DecidableEq, Repr

/-- Position row: one open exposure per (agent, market, side). -/
structure Position where
  id : ℕ
  agentId : String
  marketId : String
  side : String
  shares : ℚ
  entryPrice : ℚ
  currentValue : ℚ
  unrealizedPnl : ℚ
deriving DecidableEq, Repr

/-- PerformanceMetrics snapshot row appended by updateMetrics. -/
structure PerformanceMetrics where
  agentId : String
  netPnl : ℚ
  sharpeRatio : ℚ
  maxDrawdown : ℚ
  winRate : ℚ
  totalTrades : ℕ
  winningTrades : ℕ
  losingTrades : ℕ
  avgHoldingTime : ℚ
  turnover : ℚ
deriving DecidableEq, Repr

/-- Alert severity tiers. -/
inductive Severity | info | warning | critical
deriving DecidableEq, Repr

/-- Alert row (the fields relevant to threshold evaluation). -/
structure Alert where
  type : String
  severity : Severity
  title : String
  message : String
deriving DecidableEq, Repr

/-- TickCycle status. -/
inductive CycleStatus | running | completed | failed
deriving DecidableEq, Repr

/-- TickCycle row; `completedAt` records whether a completion timestamp was set. -/
structure TickCycle where
  id : ℕ
  cycleNumber : ℕ
  status : CycleStatus
  marketsProcessed : ℕ
  tradesExecuted : ℕ
  errorCount : ℕ
  completedAt : Bool
deriving DecidableEq, Repr

/-- The storage layer's tables, plus a fresh-id counter for created rows. -/
structure Store where
  agents : List Agent
  markets : List Market
  trades : List Trade
  positions : List Position
  metrics : List PerformanceMetrics
  cycles : List TickCycle
  alerts : List Alert
  nextId : ℕ
deriving DecidableEq, Repr

/-! Configuration constants (server/config.ts). -/

/-- config.trading.initialBalance = 500 USDC per agent. -/
def initialBalance : ℚ := 500

/-- config.trading.maxTradePercent = 0.10. -/
def maxTradePercent : ℚ := 1/10

/-- config.trading.minLiquidity = 1000 USDC. -/
def minLiquidity : ℚ := 1000

/-- config.trading.tickIntervalMinutes = 15. -/
def tickIntervalMinutes : ℚ := 15

/-- The dust epsilon in simulateTrade's SELL branch (0.001). -/
def dustEps : ℚ := 1/1000

/-! Storage accessors (server/storage.ts), embedded as pure list operations. -/

/-- storage.getAgent. -/
def getAgent (s : Store) (id : String) : Option Agent :=
  s.agents.find? (fun a => a.id == id)

/-- storage.getMarket. -/
def getMarket (s : Store) (id : String) : Option Market :=
  s.markets.find? (fun m => m.id == id)

/-- storage.getPosition: first position matching (agent, market, side). -/
def getPosition (s : Store) (agentId marketId side : String) : Option Position :=
  s.positions.find? (fun p => p.agentId == agentId && p.marketId == marketId && p.side == side)

/-- storage.updateAgentBalance. -/
def updateAgentBalance (s : Store) (id : String) (bal : ℚ) : Store :=
  { s with agents := s.agents.map (fun a => if a.id == id then { a with currentBalance := bal } else a) }

/-- storage.createPosition: assigns a fresh id and appends the row. -/
def createPosition (s : Store) (p : Position) : Store :=
  { s with positions := s.positions ++ [{ p with id := s.nextId }], nextId := s.nextId + 1 }

/-- storage.updatePosition with a partial field update, embedded as a row transformer. -/
def modifyPosition (s : Store) (id : ℕ) (f : Position → Position) : Store :=
  { s with positions := s.positions.map (fun p => if p.id == id then f p else p) }

/-- storage.deletePosition. -/
def deletePosition (s : Store) (id : ℕ) : Store :=
  { s with positions := s.positions.filter (fun p => p.id != id) }

/-- storage.updateTradeStatus. -/
def updateTradeStatus (s : Store) (id : ℕ) (st : TradeStatus) (err : Option String) : Store :=
  { s with trades := s.trades.map (fun t => if t.id == id then { t with status := st, errorMessage := err } else t) }

/-- storage.getTrade by id (used to return the updated trade row). -/
def getTradeById (s : Store) (id : ℕ) : Option Trade :=
  s.trades.find? (fun t => t.id == id)

/-- The market's current price on the requested side
(`action.side === "YES" ? yesPrice : noPrice`). -/
def sidePrice (m : Market) (side : String) : ℚ :=
  if side == "YES" then m.yesPrice else m.noPrice

/-! Trade Executor (server/services/trade-executor.ts). -/

/-- TradeExecutor.validateTrade: returns `some error` on the first failing
check, `none` when the action is valid, in the source's check order. -/
def validateTrade (s : Store) (agentId : String) (a : TradeAction) : Option String :=
  if a.action = TAction.HOLD then none
  else
    match getAgent s agentId with
    | none => some "Agent not found"
    | some agent =>
      match getMarket s a.market_id with
      | none => some "Market not found"
      | some market =>
        if market.isResolved then some "Market is already resolved"
        else if a.action = TAction.BUY ∧ a.size_usd > agent.currentBalance then
          some "Insufficient balance"
        else if a.size_usd > agent.initialBalance * maxTradePercent then
          some "Trade size exceeds limit"
        else if market.liquidity < minLiquidity then
          some "Market liquidity too low"
        else if a.action = TAction.SELL then
          match getPosition s agentId a.market_id a.side with
          | none => some "Insufficient position to sell"
          | some p =>
            if p.shares * p.entryPrice < a.size_usd then some "Insufficient position to sell"
            else none
        else none

/-- TradeExecutor.simulateTrade: applies the balance and position mutations
of one BUY or SELL (HOLD mutates nothing).  In the embedding the storage
calls always succeed, so the source's boolean result is always true. -/
def simulateTrade (s : Store) (agent : Agent) (market : Market) (a : TradeAction)
    (shares price : ℚ) : Store :=
  match a.action with
  | TAction.BUY =>
    let s1 := updateAgentBalance s agent.id (agent.currentBalance - a.size_usd)
    match getPosition s1 agent.id market.id a.side with
    | some p =>
      let newShares := p.shares + shares
      let newAvgPrice := (p.shares * p.entryPrice + a.size_usd) / newShares
      modifyPosition s1 p.id (fun q =>
        { q with shares := newShares, entryPrice := newAvgPrice, currentValue := newShares * price })
    | none =>
      createPosition s1
        { id := 0, agentId := agent.id, marketId := market.id, side := a.side,
          shares := shares, entryPrice := price, currentValue := a.size_usd, unrealizedPnl := 0 }
  | TAction.SELL =>
    let s1 := updateAgentBalance s agent.id (agent.currentBalance + a.size_usd)
    match getPosition s1 agent.id market.id a.side with
    | some p =>
      let remainingShares := p.shares - a.size_usd / price
      if remainingShares ≤ dustEps then deletePosition s1 p.id
      else modifyPosition s1 p.id (fun q =>
        { q with shares := remainingShares, currentValue := remainingShares * price })
    | none => s1
  | TAction.HOLD => s

/-- TradeExecutor.updateMetrics: the PerformanceMetrics row computed from the
store and the agent row the executor fetched before mutating balances. -/
def computeMetrics (s : Store) (agent : Agent) : PerformanceMetrics :=
  let trades := s.trades.filter (fun t => t.agentId == agent.id)
  let positions := s.positions.filter (fun p => p.agentId == agent.id)
  let executedTrades := trades.filter (fun t => t.status == TradeStatus.executed)
  let totalTrades := executedTrades.length
  let unrealizedPnl := positions.foldl (fun acc p => acc + p.unrealizedPnl) 0
  let netPnl := (agent.currentBalance - agent.initialBalance) + unrealizedPnl
  let pnlRatio := netPnl / agent.initialBalance
  let estimatedWinRate := max (3/10 : ℚ) (min (7/10) (1/2 + pnlRatio))
  let winningTrades := (⌊(totalTrades : ℚ) * estimatedWinRate⌋).toNat
  let losingTrades := totalTrades - winningTrades
  let winRate := if totalTrades > 0 then (winningTrades : ℚ) / totalTrades else 0
  let returns := netPnl / agent.initialBalance
  let volatility : ℚ := 1/5
  let sharpeRatio := if volatility > 0 then returns / volatility else 0
  let maxDrawdown := min 0 (netPnl / agent.initialBalance)
  let turnover := executedTrades.foldl (fun acc t => acc + t.sizeUsd) 0
  let avgHoldingTime := if totalTrades > 0 then tickIntervalMinutes * 4 else 0
  { agentId := agent.id, netPnl := netPnl, sharpeRatio := sharpeRatio,
    maxDrawdown := maxDrawdown, winRate := winRate, totalTrades := totalTrades,
    winningTrades := winningTrades, losingTrades := losingTrades,
    avgHoldingTime := avgHoldingTime, turnover := turnover }

/-- TradeExecutor.updateMetrics: appends the computed snapshot row. -/
def updateMetrics (s : Store) (agent : Agent) : Store :=
  { s with metrics := s.metrics ++ [computeMetrics s agent] }

/-- Result of TradeExecutor.executeTrade. -/
structure ExecutionResult where
  success : Bool
  trade : Option Trade
  error : Option String
deriving DecidableEq, Repr

/-- TradeExecutor.executeTrade in simulation mode (the default: real mode
falls back to the same simulateTrade path).  On validation failure or a
missing agent/market or a BUY price above max_price it returns early with
no mutation and `trade = none`; otherwise it creates a pending Trade row,
applies simulateTrade, marks the trade executed and appends a metrics row. -/
def executeTrade (s : Store) (agentId : String) (a : TradeAction) : Store × ExecutionResult :=
  match validateTrade s agentId a with
  | some err => (s, { success := false, trade := none, error := some err })
  | none =>
    match getAgent s agentId, getMarket s a.market_id with
    | some agent, some market =>
      let currentPrice := sidePrice market a.side
      if a.action = TAction.BUY ∧ currentPrice > a.max_price then
        (s, { success := false, trade := none, error := some "Price exceeds max" })
      else
        let shares := a.size_usd / currentPrice
        let tradeId := s.nextId
        let pendingTrade : Trade :=
          { id := tradeId, agentId := agentId, marketId := a.market_id,
            action := a.action, side := a.side, sizeUsd := a.size_usd,
            price := currentPrice, shares := shares,
            status := TradeStatus.pending, errorMessage := none }
        let s1 : Store := { s with trades := s.trades ++ [pendingTrade], nextId := s.nextId + 1 }
        let s2 := simulateTrade s1 agent market a shares currentPrice
        let s3 := updateTradeStatus s2 tradeId TradeStatus.executed none
        let s4 := updateMetrics s3 agent
        (s4, { success := true, trade := getTradeById s4 tradeId, error := none })
    | _, _ => (s, { success := false, trade := none, error := some "Agent or market not found" })

/-- TradeExecutor.updatePositionValues: revalue every open position against
the latest market price. -/
def updatePositionValues (s : Store) : Store :=
  { s with positions := s.positions.map (fun p =>
      match getMarket s p.marketId with
      | none => p
      | some m =>
        let currentPrice := sidePrice m p.side
        { p with currentValue := p.shares * currentPrice,
                 unrealizedPnl := (currentPrice - p.entryPrice) * p.shares }) }

/-! Decision Engine response parser (server/services/ai-agents.ts,
AIAgentService.parseTradeAction).  The JSON.parse step is external; the
embedding starts from the parsed record, with `Option` fields for absent
keys and JS falsiness modelled explicitly ("" and 0 are falsy). -/

/-- The parsed JSON record a provider response yields. -/
structure ParsedResponse where
  action : Option String
  market_id : Option String
  side : Option String
  size_usd : Option ℚ
  max_price : Option ℚ
  reasoning : Option String
deriving DecidableEq, Repr

/-- JS falsiness of an optional string field (absent or ""). -/
def strFalsy : Option String → Bool
  | none => true
  | some s => s == ""

/-- JS falsiness of an optional numeric field (absent or 0). -/
def numFalsy : Option ℚ → Bool
  | none => true
  | some q => q == 0

/-- JS `x || d` for an optional string field. -/
def strOrDefault (x : Option String) (d : String) : String :=
  match x with
  | none => d
  | some s => if s == "" then d else s

/-- JS `x || d` for an optional numeric field. -/
def numOrDefault (x : Option ℚ) (d : ℚ) : ℚ :=
  match x with
  | none => d
  | some q => if q == 0 then d else q

/-- AIAgentService.parseTradeAction, from the parsed record onward:
rejects an action tag outside BUY/SELL/HOLD; HOLD is canonicalised with
size 0; non-HOLD requires truthy market_id, side and size_usd, clamps
size_usd to min(size, 50) and defaults max_price to 1 when falsy. -/
def parseTradeAction (p : ParsedResponse) : Option TradeAction :=
  match p.action with
  | none => none
  | some act =>
    if ¬ (act = "BUY" ∨ act = "SELL" ∨ act = "HOLD") then none
    else if act = "HOLD" then
      some { action := TAction.HOLD, market_id := strOrDefault p.market_id "",
             side := strOrDefault p.side "YES", size_usd := 0, max_price := 0,
             reasoning := strOrDefault p.reasoning "No action taken" }
    else if strFalsy p.market_id || strFalsy p.side || numFalsy p.size_usd then none
    else
      some { action := if act = "BUY" then TAction.BUY else TAction.SELL,
             market_id := p.market_id.getD "", side := p.side.getD "",
             size_usd := min (p.size_usd.getD 0) 50,
             max_price := numOrDefault p.max_price 1,
             reasoning := strOrDefault p.reasoning "No reasoning provided" }

/-! Alert Engine (server/services/alerts.ts). -/

/-- AlertService threshold: largeWinAmount = 25. -/
def largeWinAmount : ℚ := 25

/-- AlertService threshold: largeLossAmount = 20. -/
def largeLossAmount : ℚ := 20

/-- AlertService threshold: riskLimitPercent = 35. -/
def riskLimitPercent : ℚ := 35

/-- AlertService threshold: significantDrawdown = 10. -/
def significantDrawdown : ℚ := 10

/-- AlertService threshold: highWinRateThreshold = 75. -/
def highWinRateThreshold : ℚ := 75

/-- The cycle statistics record passed to checkCycleAlerts. -/
structure CycleStats where
  cycleNumber : ℕ
  marketsProcessed : ℕ
  tradesExecuted : ℕ
  errorCount : ℕ
deriving DecidableEq, Repr

/-- AlertService.checkCycleAlerts: the alerts it creates for given stats. -/
def checkCycleAlerts (stats : CycleStats) : List Alert :=
  (if stats.errorCount > 0 then
    [{ type := "system_error",
       severity := if stats.errorCount ≥ 3 then Severity.critical else Severity.warning,
       title := "Cycle Errors", message := "errors occurred during trading cycle" }]
   else []) ++
  (if stats.tradesExecuted ≥ 3 then
    [{ type := "market_opportunity", severity := Severity.info,
       title := "Active Trading Cycle", message := "trades executed" }]
   else [])

/-- The drawdown condition of AlertService.checkPerformanceAlerts
(`maxDrawdown >= significantDrawdown`), which guards the critical
risk_breach drawdown alert. -/
def drawdownAlertFires (m : PerformanceMetrics) : Bool :=
  decide (m.maxDrawdown ≥ significantDrawdown)

/-! Cycle Orchestrator (server/services/scheduler.ts, Scheduler.runCycle).
External effects are injected: `collected = none` means the intelligence
fetch (dataCollector.collectAll) throws; `decisions` is the list returned
by aiAgentService.getDecisions; `postThrow` means an exception is thrown
in the post-completion fetch/broadcast block inside the try body.  The
embedding of runCycle is a total function: the source's top-level catch
means no exception escapes to the caller/timer. -/

/-- One entry of aiAgentService.getDecisions' result. -/
structure AgentDecision where
  agentId : String
  tradeAction : Option TradeAction
  error : Option String
deriving DecidableEq, Repr

/-- Injected outcomes of the external calls made by one runCycle. -/
structure CycleInputs where
  collected : Option (List Market)
  decisions : List AgentDecision
  postThrow : Bool
deriving DecidableEq, Repr

/-- The scheduler's per-decision loop: skip errors (counting them), skip
missing or HOLD actions, execute the rest, counting successes and failures. -/
def runDecisions : Store → List AgentDecision → ℕ → ℕ → Store × ℕ × ℕ
  | s, [], t, e => (s, t, e)
  | s, d :: ds, t, e =>
    if d.error.isSome then runDecisions s ds t (e + 1)
    else
      match d.tradeAction with
      | none => runDecisions s ds t e
      | some a =>
        if a.action = TAction.HOLD then runDecisions s ds t e
        else
          let r := executeTrade s d.agentId a
          if r.2.success then runDecisions r.1 ds (t + 1) e
          else runDecisions r.1 ds t (e + 1)

/-- storage.updateCycle: replace the row with the given id. -/
def updateCycle (s : Store) (id : ℕ) (c : TickCycle) : Store :=
  { s with cycles := s.cycles.map (fun x => if x.id == id then c else x) }

/-- The value runCycle returns in the embedding: the final store, the final
state of this cycle's TickCycle row, and the sequence of statuses the row
held (each element is one status write the source performs). -/
structure CycleResult where
  store : Store
  cycle : TickCycle
  statusTrace : List CycleStatus
deriving DecidableEq, Repr

/-- The TickCycle row runCycle creates at cycle start (status running). -/
def freshCycle (s : Store) (cycleNumber : ℕ) : TickCycle :=
  { id := s.nextId, cycleNumber := cycleNumber, status := CycleStatus.running,
    marketsProcessed := 0, tradesExecuted := 0, errorCount := 0, completedAt := false }

/-- Scheduler.runCycle: create the TickCycle row as running; on an
intelligence-fetch throw the catch marks it failed with errorCount 0+1;
otherwise run the decision loop, revalue positions, mark the cycle
completed with the final counts, and — if the post-completion block throws
— the same catch marks the already-completed row failed with the local
errorCount plus one. -/
def runCycle (s : Store) (cycleNumber : ℕ) (inp : CycleInputs) : CycleResult :=
  let cyc : TickCycle := freshCycle s cycleNumber
  let s0 : Store := { s with cycles := s.cycles ++ [cyc], nextId := s.nextId + 1 }
  match inp.collected with
  | none =>
    let final : TickCycle :=
      { cyc with
        status := CycleStatus.failed, completedAt := true,
        marketsProcessed := 0, tradesExecuted := 0, errorCount := 0 + 1 }
    { store := updateCycle s0 cyc.id final, cycle := final,
      statusTrace := [CycleStatus.running, CycleStatus.failed] }
  | some mkts =>
    let s1 : Store := { s0 with markets := mkts }
    let res := runDecisions s1 inp.decisions 0 0
    let s2 := updatePositionValues res.1
    let completedCycle : TickCycle :=
      { cyc with
        status := CycleStatus.completed, completedAt := true,
        marketsProcessed := mkts.length,
        tradesExecuted := res.2.1, errorCount := res.2.2 }
    let s3 := updateCycle s2 cyc.id completedCycle
    if inp.postThrow then
      let failedCycle : TickCycle :=
        { completedCycle with
          status := CycleStatus.failed, errorCount := res.2.2 + 1 }
      { store := updateCycle s3 cyc.id failedCycle, cycle := failedCycle,
        statusTrace := [CycleStatus.running, CycleStatus.completed, CycleStatus.failed] }
    else
      { store := s3, cycle := completedCycle,
        statusTrace := [CycleStatus.running, CycleStatus.completed] }

/-- The error count runCycle has accumulated locally at the moment an
exception reaches the top-level catch (0 when the intelligence fetch
throws; the decision-loop total when the post-completion block throws). -/
def localCycleErrors (s : Store) (cycleNumber : ℕ) (inp : CycleInputs) : ℕ :=
  match inp.collected with
  | none => 0
  | some mkts =>
    let cyc : TickCycle := freshCycle s cycleNumber
    let s0 : Store := { s with cycles := s.cycles ++ [cyc], nextId := s.nextId + 1 }
    (runDecisions { s0 with markets := mkts } inp.decisions 0 0).2.2

/-- Executing a whole sequence of (agentId, action) pairs through the
Trade Executor, threading the store. -/
def execSeq : Store → List (String × TradeAction) → Store
  | s, [] => s
  | s, pr :: rest => execSeq (executeTrade s pr.1 pr.2).1 rest

/-- The data collector's per-cycle market refresh, restricted to one price:
storage.updateMarket setting a new yesPrice on one market row. -/
def setYesPrice (s : Store) (id : String) (p : ℚ) : Store :=
  { s with markets := s.markets.map (fun m => if m.id == id then { m with yesPrice := p } else m) }

/-! Concrete fixtures used by witnesses and counterexamples. -/

/-- A demo agent with the configured initial balance and a given current balance. -/
def demoAgent (bal : ℚ) : Agent :=
  { id := "a1", initialBalance := 500, currentBalance := bal, isActive := true }

/-- A demo unresolved market with ample liquidity at a given YES price. -/
def demoMarket (p : ℚ) : Market :=
  { id := "m1", yesPrice := p, noPrice := 1 - p, liquidity := 5000, isResolved := false }

/-- A one-agent, one-market store fixture. -/
def demoStore (bal p : ℚ) (ps : List Position) (nid : ℕ) : Store :=
  { agents := [demoAgent bal], markets := [demoMarket p], trades := [],
    positions := ps, metrics := [], cycles := [], alerts := [], nextId := nid }

/-- A BUY action on the demo market. -/
def demoBuy (sz : ℚ) : TradeAction :=
  { action := TAction.BUY, market_id := "m1", side := "YES", size_usd := sz,
    max_price := 1, reasoning := "buy" }

/-- A SELL action on the demo market. -/
def demoSell (sz : ℚ) : TradeAction :=
  { action := TAction.SELL, market_id := "m1", side := "YES", size_usd := sz,
    max_price := 1, reasoning := "sell" }

/-- An empty store. -/
def emptyStore : Store :=
  { agents := [], markets := [], trades := [], positions := [], metrics := [],
    cycles := [], alerts := [], nextId := 0 }

/-! Frame lemmas: which tables each embedded storage operation leaves alone. -/

theorem positions_updateMetrics (s : Store) (ag : Agent) :
    (updateMetrics s ag).positions = s.positions := rfl

theorem positions_updateTradeStatus (s : Store) (i : ℕ) (st : TradeStatus) (e : Option String) :
    (updateTradeStatus s i st e).positions = s.positions := rfl

theorem positions_updateAgentBalance (s : Store) (id : String) (b : ℚ) :
    (updateAgentBalance s id b).positions = s.positions := rfl

theorem markets_updateMetrics (s : Store) (ag : Agent) :
    (updateMetrics s ag).markets = s.markets := rfl

theorem markets_updateTradeStatus (s : Store) (i : ℕ) (st : TradeStatus) (e : Option String) :
    (updateTradeStatus s i st e).markets = s.markets := rfl

theorem markets_updateAgentBalance (s : Store) (id : String) (b : ℚ) :
    (updateAgentBalance s id b).markets = s.markets := rfl

theorem markets_createPosition (s : Store) (p : Position) :
    (createPosition s p).markets = s.markets := rfl

theorem markets_modifyPosition (s : Store) (i : ℕ) (f : Position → Position) :
    (modifyPosition s i f).markets = s.markets := rfl

theorem markets_deletePosition (s : Store) (i : ℕ) :
    (deletePosition s i).markets = s.markets := rfl

theorem alerts_updateMetrics (s : Store) (ag : Agent) :
    (updateMetrics s ag).alerts = s.alerts := rfl

theorem alerts_updateTradeStatus (s : Store) (i : ℕ) (st : TradeStatus) (e : Option String) :
    (updateTradeStatus s i st e).alerts = s.alerts := rfl

theorem alerts_updateAgentBalance (s : Store) (id : String) (b : ℚ) :
    (updateAgentBalance s id b).alerts = s.alerts := rfl

theorem alerts_createPosition (s : Store) (p : Position) :
    (createPosition s p).alerts = s.alerts := rfl

theorem alerts_modifyPosition (s : Store) (i : ℕ) (f : Position → Position) :
    (modifyPosition s i f).alerts = s.alerts := rfl

theorem alerts_deletePosition (s : Store) (i : ℕ) :
    (deletePosition s i).alerts = s.alerts := rfl

theorem alerts_updatePositionValues (s : Store) :
    (updatePositionValues s).alerts = s.alerts := rfl

theorem alerts_updateCycle (s : Store) (i : ℕ) (c : TickCycle) :
    (updateCycle s i c).alerts = s.alerts := rfl

theorem cycles_updateMetrics (s : Store) (ag : Agent) :
    (updateMetrics s ag).cycles = s.cycles := rfl

theorem cycles_updateTradeStatus (s : Store) (i : ℕ) (st : TradeStatus) (e : Option String) :
    (updateTradeStatus s i st e).cycles = s.cycles := rfl

theorem cycles_updateAgentBalance (s : Store) (id : String) (b : ℚ) :
    (updateAgentBalance s id b).cycles = s.cycles := rfl

theorem cycles_createPosition (s : Store) (p : Position) :
    (createPosition s p).cycles = s.cycles := rfl

theorem cycles_modifyPosition (s : Store) (i : ℕ) (f : Position → Position) :
    (modifyPosition s i f).cycles = s.cycles := rfl

theorem cycles_deletePosition (s : Store) (i : ℕ) :
    (deletePosition s i).cycles = s.cycles := rfl

theorem cycles_updatePositionValues (s : Store) :
    (updatePositionValues s).cycles = s.cycles := rfl

/-- simulateTrade never touches the alerts table. -/
theorem alerts_simulateTrade (s : Store) (ag : Agent) (mk : Market) (a : TradeAction)
    (sh pr : ℚ) : (simulateTrade s ag mk a sh pr).alerts = s.alerts := by
  unfold simulateTrade
  cases a.action <;> simp only []
  · cases getPosition (updateAgentBalance s ag.id (ag.currentBalance - a.size_usd)) ag.id mk.id a.side <;>
      simp [alerts_createPosition, alerts_modifyPosition, alerts_updateAgentBalance]
  · cases getPosition (updateAgentBalance s ag.id (ag.currentBalance + a.size_usd)) ag.id mk.id a.side with
    | none => simp [alerts_updateAgentBalance]
    | some p =>
      by_cases h : p.shares - a.size_usd / pr ≤ dustEps <;>
        simp [h, alerts_deletePosition, alerts_modifyPosition, alerts_updateAgentBalance]

/-- simulateTrade never touches the cycles table. -/
theorem cycles_simulateTrade (s : Store) (ag : Agent) (mk : Market) (a : TradeAction)
    (sh pr : ℚ) : (simulateTrade s ag mk a sh pr).cycles = s.cycles := by
  unfold simulateTrade
  cases a.action <;> simp only []
  · cases getPosition (updateAgentBalance s ag.id (ag.currentBalance - a.size_usd)) ag.id mk.id a.side <;>
      simp [cycles_createPosition, cycles_modifyPosition, cycles_updateAgentBalance]
  · cases getPosition (updateAgentBalance s ag.id (ag.currentBalance + a.size_usd)) ag.id mk.id a.side with
    | none => simp [cycles_updateAgentBalance]
    | some p =>
      by_cases h : p.shares - a.size_usd / pr ≤ dustEps <;>
        simp [h, cycles_deletePosition, cycles_modifyPosition, cycles_updateAgentBalance]

/-- executeTrade never touches the alerts table. -/
theorem alerts_executeTrade (s : Store) (aid : String) (a : TradeAction) :
    (executeTrade s aid a).1.alerts = s.alerts := by
  unfold executeTrade
  cases validateTrade s aid a with
  | some e => rfl
  | none =>
    cases hag : getAgent s aid with
    | none => cases getMarket s a.market_id <;> rfl
    | some ag =>
      cases hmk : getMarket s a.market_id with
      | none => rfl
      | some mk =>
        by_cases hc : a.action = TAction.BUY ∧ sidePrice mk a.side > a.max_price
        · simp [hc]
        · simp only [hc, if_false, if_neg hc]
          rw [alerts_updateMetrics, alerts_updateTradeStatus, alerts_simulateTrade]

/-- executeTrade never touches the cycles table. -/
theorem cycles_executeTrade (s : Store) (aid : String) (a : TradeAction) :
    (executeTrade s aid a).1.cycles = s.cycles := by
  unfold executeTrade
  cases validateTrade s aid a with
  | some e => rfl
  | none =>
    cases hag : getAgent s aid with
    | none => cases getMarket s a.market_id <;> rfl
    | some ag =>
      cases hmk : getMarket s a.market_id with
      | none => rfl
      | some mk =>
        by_cases hc : a.action = TAction.BUY ∧ sidePrice mk a.side > a.max_price
        · simp [hc]
        · simp only [hc, if_false, if_neg hc]
          rw [cycles_updateMetrics, cycles_updateTradeStatus, cycles_simulateTrade]

/-- The decision loop never touches the alerts table. -/
theorem alerts_runDecisions (ds : List AgentDecision) :
    ∀ (s : Store) (t e : ℕ), (runDecisions s ds t e).1.alerts = s.alerts := by
  induction ds with
  | nil => intro s t e; rfl
  | cons d ds ih =>
    intro s t e
    unfold runDecisions
    by_cases herr : d.error.isSome
    · simp only [herr, if_true]; exact ih s _ _
    · simp only [herr, if_false, Bool.false_eq_true]
      cases d.tradeAction with
      | none => exact ih s _ _
      | some a =>
        by_cases hh : a.action = TAction.HOLD
        · simp only [hh, if_pos]; exact ih s _ _
        · simp only [if_neg hh]
          cases hr : (executeTrade s d.agentId a).2.success
          · simp only [hr, Bool.false_eq_true, if_false]
            rw [ih, alerts_executeTrade]
          · simp only [hr, if_true]
            rw [ih, alerts_executeTrade]

/-- The decision loop never touches the cycles table. -/
theorem cycles_runDecisions (ds : List AgentDecision) :
    ∀ (s : Store) (t e : ℕ), (runDecisions s ds t e).1.cycles = s.cycles := by
  induction ds with
  | nil => intro s t e; rfl
  | cons d ds ih =>
    intro s t e
    unfold runDecisions
    by_cases herr : d.error.isSome
    · simp only [herr, if_true]; exact ih s _ _
    · simp only [herr, if_false, Bool.false_eq_true]
      cases d.tradeAction with
      | none => exact ih s _ _
      | some a =>
        by_cases hh : a.action = TAction.HOLD
        · simp only [hh, if_pos]; exact ih s _ _
        · simp only [if_neg hh]
          cases hr : (executeTrade s d.agentId a).2.success
          · simp only [hr, Bool.false_eq_true, if_false]
            rw [ih, cycles_executeTrade]
          · simp only [hr, if_true]
            rw [ih, cycles_executeTrade]

/-! Claim theorems. -/

/-- C9: every PerformanceMetrics row computed by the Trade Executor's
updateMetrics has maxDrawdown = min(0, netPnl / initialBalance) ≤ 0, so the
Alert Engine's drawdown condition (maxDrawdown ≥ 10) is never satisfied by
such a row and the critical drawdown alert is unreachable from it. -/
theorem computeMetrics_drawdown_alert_unreachable (s : Store) (agent : Agent) :
    (computeMetrics s agent).maxDrawdown =
      min 0 ((computeMetrics s agent).netPnl / agent.initialBalance) ∧
    (computeMetrics s agent).maxDrawdown ≤ 0 ∧
    drawdownAlertFires (computeMetrics s agent) = false := by
  refine ⟨rfl, min_le_left 0 _, ?_⟩
  have h : (computeMetrics s agent).maxDrawdown ≤ 0 := min_le_left 0 _
  have h10 : ¬ ((computeMetrics s agent).maxDrawdown ≥ significantDrawdown) := by
    unfold significantDrawdown
    intro hge
    linarith
  simpa [drawdownAlertFires] using h10

/-- C8: every non-HOLD action accepted by parseTradeAction has
size_usd ≤ maxTradePercent · initialBalance = 50 (larger provider values are
clamped by min(·, 50)), and max_price defaults to 1 when absent. -/
theorem parseTradeAction_size_clamped (p : ParsedResponse) (a : TradeAction)
    (hp : parseTradeAction p = some a) (hna : a.action ≠ TAction.HOLD) :
    a.size_usd ≤ maxTradePercent * initialBalance ∧
    (p.max_price = none → a.max_price = 1) := by
  have hcap : maxTradePercent * initialBalance = 50 := by
    unfold maxTradePercent initialBalance; norm_num
  unfold parseTradeAction at hp
  cases hact : p.action with
  | none => rw [hact] at hp; exact absurd hp (by simp)
  | some act =>
    rw [hact] at hp
    simp only [] at hp
    by_cases hmem : act = "BUY" ∨ act = "SELL" ∨ act = "HOLD"
    · rw [if_neg (not_not_intro hmem)] at hp
      by_cases hhold : act = "HOLD"
      · rw [if_pos hhold] at hp
        have := Option.some.inj hp
        rw [← this] at hna
        exact absurd rfl hna
      · rw [if_neg hhold] at hp
        by_cases hfal : (strFalsy p.market_id || strFalsy p.side || numFalsy p.size_usd) = true
        · rw [if_pos hfal] at hp; exact absurd hp (by simp)
        · rw [if_neg hfal] at hp
          have ha := Option.some.inj hp
          constructor
          · rw [← ha, hcap]
            exact min_le_right _ _
          · intro hmp
            rw [← ha]
            simp [numOrDefault, hmp]
    · rw [if_pos hmem] at hp; exact absurd hp (by simp)

/-- Witness for C8 at a concrete provider response with size_usd = 120 and
max_price absent: the accepted action is clamped to 50 ≤ cap and max_price
defaults to 1. -/
theorem parseTradeAction_size_clamped_witness :
    ({ action := TAction.BUY, market_id := "m1", side := "YES", size_usd := 50,
       max_price := 1, reasoning := "No reasoning provided" } : TradeAction).size_usd
      ≤ maxTradePercent * initialBalance ∧
    (({ action := some "BUY", market_id := some "m1", side := some "YES",
        size_usd := some 120, max_price := none,
        reasoning := none } : ParsedResponse).max_price = none →
      ({ action := TAction.BUY, market_id := "m1", side := "YES", size_usd := 50,
         max_price := 1, reasoning := "No reasoning provided" } : TradeAction).max_price = 1) :=
  parseTradeAction_size_clamped
    { action := some "BUY", market_id := some "m1", side := some "YES",
      size_usd := some 120, max_price := none, reasoning := none }
    { action := TAction.BUY, market_id := "m1", side := "YES", size_usd := 50,
      max_price := 1, reasoning := "No reasoning provided" }
    (by decide) (by decide)

/-- C10: for a non-HOLD provider response with truthy market_id and side,
parseTradeAction returns none when size_usd is absent or 0 (JS falsy check),
and otherwise accepts with size_usd = min(size_usd, 50) — no lower bound, so
a strictly negative size_usd is accepted unchanged. -/
theorem parseTradeAction_falsy_and_negative (p : ParsedResponse) (act : String)
    (hact : p.action = some act) (hbs : act = "BUY" ∨ act = "SELL")
    (hm : strFalsy p.market_id = false) (hs : strFalsy p.side = false) :
    ((p.size_usd = none ∨ p.size_usd = some 0) → parseTradeAction p = none) ∧
    (∀ q : ℚ, p.size_usd = some q → q ≠ 0 →
      ∃ a : TradeAction, parseTradeAction p = some a ∧ a.action ≠ TAction.HOLD ∧
        a.size_usd = min q 50 ∧ (q < 0 → a.size_usd = q)) := by
  have hnh : act ≠ "HOLD" := by
    rcases hbs with h | h <;> rw [h] <;> decide
  have hmem : act = "BUY" ∨ act = "SELL" ∨ act = "HOLD" := by
    rcases hbs with h | h
    · exact Or.inl h
    · exact Or.inr (Or.inl h)
  constructor
  · intro hfal
    unfold parseTradeAction
    rw [hact]
    simp only []
    rw [if_neg (not_not_intro hmem), if_neg hnh, if_pos]
    rcases hfal with h | h <;> rw [h] <;> simp [numFalsy]
  · intro q hq hq0
    unfold parseTradeAction
    rw [hact]
    simp only []
    rw [if_neg (not_not_intro hmem), if_neg hnh, if_neg]
    · refine ⟨_, rfl, ?_, ?_, ?_⟩
      · rcases hbs with h | h <;> simp [h]
      · simp [hq]
      · intro hneg
        have : min q 50 = q := min_eq_left (by linarith)
        simp [hq, this]
    · rw [hm, hs, hq]
      simp [numFalsy, hq0]

/-- Witness for C10: with market_id and side present, a BUY response with
size_usd = 0 parses to none, and one with size_usd = −10 parses to an
accepted BUY whose size_usd is −10 itself. -/
theorem parseTradeAction_falsy_and_negative_witness :
    parseTradeAction { action := some "BUY", market_id := some "m1", side := some "YES",
                       size_usd := some 0, max_price := none, reasoning := none } = none ∧
    ∃ a : TradeAction,
      parseTradeAction { action := some "BUY", market_id := some "m1", side := some "YES",
                         size_usd := some (-10), max_price := some 1,
                         reasoning := none } = some a ∧
      a.action ≠ TAction.HOLD ∧ a.size_usd = min (-10) 50 ∧ ((-10 : ℚ) < 0 → a.size_usd = -10) :=
  ⟨(parseTradeAction_falsy_and_negative
      { action := some "BUY", market_id := some "m1", side := some "YES",
        size_usd := some 0, max_price := none, reasoning := none }
      "BUY" rfl (Or.inl rfl) (by decide) (by decide)).1 (Or.inr rfl),
   (parseTradeAction_falsy_and_negative
      { action := some "BUY", market_id := some "m1", side := some "YES",
        size_usd := some (-10), max_price := some 1, reasoning := none }
      "BUY" rfl (Or.inl rfl) (by decide) (by decide)).2 (-10) rfl (by norm_num)⟩

/-- C4: the orchestrator's runCycle never invokes the Alert Engine — the
alerts table is unchanged by every cycle, for every store and every
injected outcome — even though checkCycleAlerts would produce an alert for
a cycle with errorCount 1 (so the claimed per-cycle onTrade/onPerformance/
onCycleComplete invocations do not happen). -/
theorem runCycle_never_invokes_alert_engine :
    (∀ (s : Store) (n : ℕ) (inp : CycleInputs),
      (runCycle s n inp).store.alerts = s.alerts) ∧
    checkCycleAlerts { cycleNumber := 1, marketsProcessed := 0, tradesExecuted := 0,
                       errorCount := 1 }
      = [{ type := "system_error", severity := Severity.warning, title := "Cycle Errors",
           message := "errors occurred during trading cycle" }] := by
  constructor
  · intro s n inp
    unfold runCycle
    cases inp.collected with
    | none => simp only []; rw [alerts_updateCycle]
    | some mkts =>
      by_cases hp : inp.postThrow
      · simp only [hp, if_true]
        rw [alerts_updateCycle, alerts_updateCycle, alerts_updatePositionValues,
          alerts_runDecisions]
      · simp only [hp, if_false, Bool.false_eq_true]
        rw [alerts_updateCycle, alerts_updatePositionValues, alerts_runDecisions]
  · decide

/-- A BUY whose size exceeds the agent's current balance never passes
validation (the short-circuit hits at the market, resolved or balance
check, always before any mutation). -/
theorem validateTrade_buy_over_balance (s : Store) (aid : String) (a : TradeAction)
    (hbuy : a.action = TAction.BUY) (ag : Agent) (hag : getAgent s aid = some ag)
    (hover : ag.currentBalance < a.size_usd) :
    ∃ e, validateTrade s aid a = some e := by
  unfold validateTrade
  rw [hbuy]
  rw [if_neg (show ¬ (TAction.BUY = TAction.HOLD) from fun h => TAction.noConfusion h)]
  rw [hag]
  simp only []
  cases hmk : getMarket s a.market_id with
  | none => exact ⟨_, rfl⟩
  | some mk =>
    simp only []
    by_cases hres : mk.isResolved = true
    · rw [if_pos hres]; exact ⟨_, rfl⟩
    · rw [if_neg hres]
      rw [if_pos (show True ∧ a.size_usd > ag.currentBalance from ⟨trivial, hover⟩)]
      exact ⟨_, rfl⟩

/-- A non-HOLD action whose size exceeds the per-trade cap, but passes the
earlier checks, is rejected with the "Trade size exceeds limit" error. -/
theorem validateTrade_over_cap (s : Store) (aid : String) (a : TradeAction)
    (ag : Agent) (mk : Market)
    (hnh : ¬ (a.action = TAction.HOLD))
    (hag : getAgent s aid = some ag) (hmk : getMarket s a.market_id = some mk)
    (hres : ¬ (mk.isResolved = true))
    (hbalok : ¬ (a.action = TAction.BUY ∧ a.size_usd > ag.currentBalance))
    (hcap : ag.initialBalance * maxTradePercent < a.size_usd) :
    validateTrade s aid a = some "Trade size exceeds limit" := by
  unfold validateTrade
  rw [if_neg hnh, hag]
  simp only []
  rw [hmk]
  simp only []
  rw [if_neg hres, if_neg hbalok, if_pos hcap]

/-- C1 (amended): a BUY whose sizeUsd exceeds the agent's currentBalance is
rejected by executeTrade with success = false and the store unmutated — in
particular currentBalance is unchanged — but no Trade record is created at
all (trade = none), rather than a Trade with status failed. -/
theorem executeTrade_insufficient_balance (s : Store) (aid : String) (a : TradeAction)
    (hbuy : a.action = TAction.BUY) (ag : Agent) (hag : getAgent s aid = some ag)
    (hover : ag.currentBalance < a.size_usd) :
    (executeTrade s aid a).1 = s ∧
    (executeTrade s aid a).2.success = false ∧
    (executeTrade s aid a).2.trade = none := by
  obtain ⟨e, he⟩ := validateTrade_buy_over_balance s aid a hbuy ag hag hover
  unfold executeTrade
  rw [he]
  exact ⟨rfl, rfl, rfl⟩

/-- Witness for C1's amended theorem: agent balance 30, BUY of 47. -/
theorem executeTrade_insufficient_balance_witness :
    (executeTrade (demoStore 30 (1/2) [] 0) "a1" (demoBuy 47)).1 = demoStore 30 (1/2) [] 0 ∧
    (executeTrade (demoStore 30 (1/2) [] 0) "a1" (demoBuy 47)).2.success = false ∧
    (executeTrade (demoStore 30 (1/2) [] 0) "a1" (demoBuy 47)).2.trade = none :=
  executeTrade_insufficient_balance (demoStore 30 (1/2) [] 0) "a1" (demoBuy 47) rfl
    (demoAgent 30) rfl (by norm_num [demoAgent, demoBuy])

/-- C1 counterexample: agent with currentBalance 40 attempts a BUY of 45
(within the $50 cap, above the balance).  The action is rejected and the
balance untouched, but the trades table stays empty: no Trade record with
status failed is produced, contradicting the claim's failed-Trade part. -/
theorem executeTrade_insufficient_balance_cex :
    (executeTrade (demoStore 40 (1/2) [] 0) "a1" (demoBuy 45)).2.success = false ∧
    (executeTrade (demoStore 40 (1/2) [] 0) "a1" (demoBuy 45)).2.trade = none ∧
    (executeTrade (demoStore 40 (1/2) [] 0) "a1" (demoBuy 45)).1.trades = [] ∧
    (executeTrade (demoStore 40 (1/2) [] 0) "a1" (demoBuy 45)).1 = demoStore 40 (1/2) [] 0 := by
  obtain ⟨e, he⟩ := validateTrade_buy_over_balance (demoStore 40 (1/2) [] 0) "a1" (demoBuy 45)
    rfl (demoAgent 40) rfl (by norm_num [demoAgent, demoBuy])
  unfold executeTrade
  rw [he]
  exact ⟨rfl, rfl, rfl, rfl⟩

/-- The C2 scenario's position: 125 shares bought at entry price 0.40. -/
def fullPos : Position :=
  { id := 7, agentId := "a1", marketId := "m1", side := "YES",
    shares := 125, entryPrice := 2/5, currentValue := 50, unrealizedPnl := 0 }

/-- C2 counterexample: with currentCapital 450 and the 125-share position,
the SELL of the full position at market price 0.50 (sizeUsd = 62.5) is NOT
executed: executeTrade rejects it, the balance stays 450 (≠ 512.5) and the
position row remains. -/
theorem sell_full_position_cex :
    (executeTrade (demoStore 450 (1/2) [fullPos] 8) "a1" (demoSell (125/2))).2.success = false ∧
    getAgent (executeTrade (demoStore 450 (1/2) [fullPos] 8) "a1" (demoSell (125/2))).1 "a1"
      = some (demoAgent 450) ∧
    getPosition (executeTrade (demoStore 450 (1/2) [fullPos] 8) "a1" (demoSell (125/2))).1
      "a1" "m1" "YES" = some fullPos ∧
    (demoAgent 450).currentBalance = 450 ∧ (450 : ℚ) < 1025/2 := by
  have he := validateTrade_over_cap (demoStore 450 (1/2) [fullPos] 8) "a1" (demoSell (125/2))
    (demoAgent 450) (demoMarket (1/2)) (by decide) rfl rfl (by decide)
    (by simp [demoSell]) (by norm_num [demoAgent, demoSell, maxTradePercent])
  unfold executeTrade
  rw [he]
  refine ⟨rfl, rfl, rfl, rfl, by norm_num⟩

/-- C2 (amended): the scenario SELL is rejected by validation — its
sizeUsd 62.5 exceeds the $50 per-trade cap (10% of initialBalance 500), and
the position's value at entry price (125·0.40 = 50) is also below 62.5 —
so executeTrade returns the store unchanged with no Trade record. -/
theorem sell_full_position_rejected :
    validateTrade (demoStore 450 (1/2) [fullPos] 8) "a1" (demoSell (125/2))
      = some "Trade size exceeds limit" ∧
    (executeTrade (demoStore 450 (1/2) [fullPos] 8) "a1" (demoSell (125/2))).1
      = demoStore 450 (1/2) [fullPos] 8 ∧
    (executeTrade (demoStore 450 (1/2) [fullPos] 8) "a1" (demoSell (125/2))).2.trade = none ∧
    (demoAgent 450).initialBalance * maxTradePercent < (demoSell (125/2)).size_usd ∧
    fullPos.shares * fullPos.entryPrice < (demoSell (125/2)).size_usd := by
  have he := validateTrade_over_cap (demoStore 450 (1/2) [fullPos] 8) "a1" (demoSell (125/2))
    (demoAgent 450) (demoMarket (1/2)) (by decide) rfl rfl (by decide)
    (by simp [demoSell]) (by norm_num [demoAgent, demoSell, maxTradePercent])
  refine ⟨he, ?_, ?_, by norm_num [demoAgent, demoSell, maxTradePercent],
    by norm_num [fullPos, demoSell]⟩
  · unfold executeTrade; rw [he]
  · unfold executeTrade; rw [he]

/-- The C6 counterexample's injected cycle outcomes: the intelligence fetch
succeeds with no markets, no agent decisions, and the post-completion
broadcast block throws. -/
def postThrowInputs : CycleInputs :=
  { collected := some [], decisions := [], postThrow := true }

/-- C6 counterexample: with a post-completion exception injected, the cycle
row's status sequence is running → completed → failed: the terminal status
completed is revisited and overwritten with failed, refuting the claim that
the only transitions are running → completed and running → failed. -/
theorem runCycle_completed_then_failed_cex :
    (runCycle emptyStore 1 postThrowInputs).statusTrace
      = [CycleStatus.running, CycleStatus.completed, CycleStatus.failed] ∧
    (runCycle emptyStore 1 postThrowInputs).cycle.status = CycleStatus.failed := by
  exact ⟨rfl, rfl⟩

/-- C6 (amended): the status sequence of every cycle row is
running → completed, running → failed, or — when an exception is thrown
after the completed update, in the post-completion broadcast phase —
running → completed → failed; failed is always final and running is never
restored. -/
theorem runCycle_status_trace_shapes (s : Store) (n : ℕ) (inp : CycleInputs) :
    (runCycle s n inp).statusTrace = [CycleStatus.running, CycleStatus.completed] ∨
    (runCycle s n inp).statusTrace = [CycleStatus.running, CycleStatus.failed] ∨
    (runCycle s n inp).statusTrace
      = [CycleStatus.running, CycleStatus.completed, CycleStatus.failed] := by
  unfold runCycle
  cases hc : inp.collected with
  | none => right; left; rfl
  | some mkts =>
    simp only []
    by_cases hp : inp.postThrow = true
    · rw [if_pos hp]; right; right; rfl
    · rw [if_neg hp]; left; rfl

/-- If some row with the target id is in the cycles table, the row written
by updateCycle is in the table afterwards. -/
theorem mem_updateCycle_of_exists (s : Store) (i : ℕ) (c : TickCycle)
    (h : ∃ x ∈ s.cycles, x.id = i) : c ∈ (updateCycle s i c).cycles := by
  obtain ⟨x, hx, hxi⟩ := h
  exact List.mem_map.mpr ⟨x, hx, by simp [hxi]⟩

/-- Writing the same cycle id twice leaves the second write in the table. -/
theorem mem_updateCycle_twice (s : Store) (i : ℕ) (c1 c2 : TickCycle) (hc1 : c1.id = i)
    (h : ∃ x ∈ s.cycles, x.id = i) :
    c2 ∈ (updateCycle (updateCycle s i c1) i c2).cycles :=
  mem_updateCycle_of_exists _ _ _ ⟨c1, mem_updateCycle_of_exists s i c1 h, hc1⟩

/-- C5: any exception escaping the cycle routine's main body (an
intelligence-fetch throw or a post-completion throw) is caught at
runCycle's top level: the persisted cycle row ends with status failed, a
completion timestamp, and error count equal to the locally accumulated
count plus one; it is never left running.  The embedding of runCycle as a
total function is itself the no-propagation guarantee: the caller/timer
always receives a normal result. -/
theorem runCycle_top_level_catch (s : Store) (n : ℕ) (inp : CycleInputs)
    (h : inp.collected = none ∨ inp.postThrow = true) :
    (runCycle s n inp).cycle.status = CycleStatus.failed ∧
    (runCycle s n inp).cycle.completedAt = true ∧
    (runCycle s n inp).cycle.errorCount = localCycleErrors s n inp + 1 ∧
    (runCycle s n inp).cycle ∈ (runCycle s n inp).store.cycles ∧
    (runCycle s n inp).cycle.status ≠ CycleStatus.running := by
  cases hc : inp.collected with
  | none =>
    unfold runCycle localCycleErrors
    rw [hc]
    refine ⟨rfl, rfl, rfl, ?_, fun hcon => CycleStatus.noConfusion hcon⟩
    exact mem_updateCycle_of_exists _ _ _
      ⟨freshCycle s n, List.mem_append_right _ (List.mem_singleton_self _), rfl⟩
  | some mkts =>
    have hp : inp.postThrow = true := by
      rcases h with h | h
      · rw [h] at hc; exact absurd hc (by simp)
      · exact h
    unfold runCycle localCycleErrors
    rw [hc]
    simp only []
    rw [if_pos hp]
    refine ⟨rfl, rfl, rfl, ?_, fun hcon => CycleStatus.noConfusion hcon⟩
    apply mem_updateCycle_twice
    · rfl
    · refine ⟨freshCycle s n, ?_, rfl⟩
      rw [cycles_updatePositionValues, cycles_runDecisions]
      exact List.mem_append_right _ (List.mem_singleton_self _)

/-- The C5 witness's injected cycle outcomes: the intelligence fetch throws. -/
def fetchThrowInputs : CycleInputs :=
  { collected := none, decisions := [], postThrow := false }

/-- Witness for C5 at a concrete failing intelligence fetch over an empty
store: the cycle ends failed, stamped, with error count 0 + 1. -/
theorem runCycle_top_level_catch_witness :
    (runCycle emptyStore 1 fetchThrowInputs).cycle.status = CycleStatus.failed ∧
    (runCycle emptyStore 1 fetchThrowInputs).cycle.completedAt = true ∧
    (runCycle emptyStore 1 fetchThrowInputs).cycle.errorCount
      = localCycleErrors emptyStore 1 fetchThrowInputs + 1 ∧
    (runCycle emptyStore 1 fetchThrowInputs).cycle
      ∈ (runCycle emptyStore 1 fetchThrowInputs).store.cycles ∧
    (runCycle emptyStore 1 fetchThrowInputs).cycle.status ≠ CycleStatus.running :=
  runCycle_top_level_catch emptyStore 1 fetchThrowInputs (Or.inl rfl)

/-! Lookup and frame helpers for the executor's success paths. -/

theorem getAgent_mem (s : Store) (aid : String) (ag : Agent)
    (h : getAgent s aid = some ag) : ag ∈ s.agents :=
  List.mem_of_find?_eq_some h

theorem getMarket_mem (s : Store) (mid : String) (mk : Market)
    (h : getMarket s mid = some mk) : mk ∈ s.markets :=
  List.mem_of_find?_eq_some h

theorem getPosition_mem (s : Store) (aid mid sd : String) (p : Position)
    (h : getPosition s aid mid sd = some p) : p ∈ s.positions :=
  List.mem_of_find?_eq_some h

/-- getPosition only reads the positions table. -/
theorem getPosition_ext (s t : Store) (h : s.positions = t.positions) (aid mid sd : String) :
    getPosition s aid mid sd = getPosition t aid mid sd := by
  unfold getPosition; rw [h]

theorem sidePrice_nonneg (m : Market) (sd : String)
    (h : 0 ≤ m.yesPrice ∧ 0 ≤ m.noPrice) : 0 ≤ sidePrice m sd := by
  unfold sidePrice
  by_cases hs : (sd == "YES") = true
  · rw [if_pos hs]; exact h.1
  · rw [if_neg hs]; exact h.2

theorem agents_updateMetrics (s : Store) (ag : Agent) :
    (updateMetrics s ag).agents = s.agents := rfl

theorem agents_updateTradeStatus (s : Store) (i : ℕ) (st : TradeStatus) (e : Option String) :
    (updateTradeStatus s i st e).agents = s.agents := rfl

theorem agents_createPosition (s : Store) (p : Position) :
    (createPosition s p).agents = s.agents := rfl

theorem agents_modifyPosition (s : Store) (i : ℕ) (f : Position → Position) :
    (modifyPosition s i f).agents = s.agents := rfl

theorem agents_deletePosition (s : Store) (i : ℕ) :
    (deletePosition s i).agents = s.agents := rfl

theorem positions_setYesPrice (s : Store) (id : String) (p : ℚ) :
    (setYesPrice s id p).positions = s.positions := rfl

theorem agents_setYesPrice (s : Store) (id : String) (p : ℚ) :
    (setYesPrice s id p).agents = s.agents := rfl

/-- simulateTrade never touches the markets table. -/
theorem markets_simulateTrade (s : Store) (ag : Agent) (mk : Market) (a : TradeAction)
    (sh pr : ℚ) : (simulateTrade s ag mk a sh pr).markets = s.markets := by
  unfold simulateTrade
  cases a.action <;> simp only []
  · cases getPosition (updateAgentBalance s ag.id (ag.currentBalance - a.size_usd)) ag.id mk.id a.side <;>
      simp [markets_createPosition, markets_modifyPosition, markets_updateAgentBalance]
  · cases getPosition (updateAgentBalance s ag.id (ag.currentBalance + a.size_usd)) ag.id mk.id a.side with
    | none => simp [markets_updateAgentBalance]
    | some p =>
      by_cases h : p.shares - a.size_usd / pr ≤ dustEps <;>
        simp [h, markets_deletePosition, markets_modifyPosition, markets_updateAgentBalance]

/-- executeTrade never touches the markets table. -/
theorem markets_executeTrade (s : Store) (aid : String) (a : TradeAction) :
    (executeTrade s aid a).1.markets = s.markets := by
  unfold executeTrade
  cases validateTrade s aid a with
  | some e => rfl
  | none =>
    cases hag : getAgent s aid with
    | none => cases getMarket s a.market_id <;> rfl
    | some ag =>
      cases hmk : getMarket s a.market_id with
      | none => rfl
      | some mk =>
        by_cases hc : a.action = TAction.BUY ∧ sidePrice mk a.side > a.max_price
        · simp [hc]
        · simp only [hc, if_false, if_neg hc]
          rw [markets_updateMetrics, markets_updateTradeStatus, markets_simulateTrade]

/-- A BUY that fits the balance, cap and liquidity checks on a live market
passes validation. -/
theorem validateTrade_buy_none (s : Store) (aid : String) (a : TradeAction)
    (ag : Agent) (mk : Market)
    (hb : a.action = TAction.BUY)
    (hag : getAgent s aid = some ag) (hmk : getMarket s a.market_id = some mk)
    (hres : mk.isResolved = false)
    (hbal : a.size_usd ≤ ag.currentBalance)
    (hcap : a.size_usd ≤ ag.initialBalance * maxTradePercent)
    (hliq : minLiquidity ≤ mk.liquidity) :
    validateTrade s aid a = none := by
  have hnh : ¬ (a.action = TAction.HOLD) := by
    rw [hb]; exact fun h => TAction.noConfusion h
  have hb1 : ¬ (a.action = TAction.BUY ∧ a.size_usd > ag.currentBalance) := by
    rintro ⟨-, hgt⟩
    exact absurd hgt (not_lt.mpr hbal)
  have hns : ¬ (a.action = TAction.SELL) := by
    rw [hb]; exact fun h => TAction.noConfusion h
  have hresp : ¬ (mk.isResolved = true) := by
    rw [hres]; exact Bool.false_ne_true
  unfold validateTrade
  rw [if_neg hnh, hag]
  simp only []
  rw [hmk]
  simp only []
  rw [if_neg hresp, if_neg hb1, if_neg (not_lt.mpr hcap), if_neg (not_lt.mpr hliq), if_neg hns]

/-- A SELL that fits the cap and liquidity checks, on a live market, with an
existing position worth at least the requested size, passes validation. -/
theorem validateTrade_sell_none (s : Store) (aid : String) (a : TradeAction)
    (ag : Agent) (mk : Market) (pos : Position)
    (hsell : a.action = TAction.SELL)
    (hag : getAgent s aid = some ag) (hmk : getMarket s a.market_id = some mk)
    (hres : mk.isResolved = false)
    (hcap : a.size_usd ≤ ag.initialBalance * maxTradePercent)
    (hliq : minLiquidity ≤ mk.liquidity)
    (hpos : getPosition s aid a.market_id a.side = some pos)
    (hworth : a.size_usd ≤ pos.shares * pos.entryPrice) :
    validateTrade s aid a = none := by
  have hnh : ¬ (a.action = TAction.HOLD) := by
    rw [hsell]; exact fun h => TAction.noConfusion h
  have hb1 : ¬ (a.action = TAction.BUY ∧ a.size_usd > ag.currentBalance) := by
    rintro ⟨hb', -⟩
    rw [hsell] at hb'
    exact TAction.noConfusion hb'
  have hresp : ¬ (mk.isResolved = true) := by
    rw [hres]; exact Bool.false_ne_true
  unfold validateTrade
  rw [if_neg hnh, hag]
  simp only []
  rw [hmk]
  simp only []
  rw [if_neg hresp, if_neg hb1, if_neg (not_lt.mpr hcap), if_neg (not_lt.mpr hliq),
    if_pos hsell, hpos]
  simp only []
  rw [if_neg (not_lt.mpr hworth)]

/-- On the success path (valid action, agent and market found, BUY price
check passed), executeTrade is exactly: append the pending trade row, apply
simulateTrade, mark the trade executed, append the metrics row. -/
theorem executeTrade_valid_fst (s : Store) (aid : String) (a : TradeAction)
    (ag : Agent) (mk : Market)
    (hval : validateTrade s aid a = none)
    (hag : getAgent s aid = some ag) (hmk : getMarket s a.market_id = some mk)
    (hpr : ¬ (a.action = TAction.BUY ∧ sidePrice mk a.side > a.max_price)) :
    (executeTrade s aid a).1 =
      updateMetrics (updateTradeStatus (simulateTrade
        { s with
          trades := s.trades ++
            [{ id := s.nextId, agentId := aid, marketId := a.market_id,
               action := a.action, side := a.side, sizeUsd := a.size_usd,
               price := sidePrice mk a.side, shares := a.size_usd / sidePrice mk a.side,
               status := TradeStatus.pending, errorMessage := none }],
          nextId := s.nextId + 1 }
        ag mk a (a.size_usd / sidePrice mk a.side) (sidePrice mk a.side))
        s.nextId TradeStatus.executed none) ag := by
  unfold executeTrade
  rw [hval]
  simp only []
  rw [hag, hmk]
  simp only []
  rw [if_neg hpr]

/-- On the same success path the execution result reports success. -/
theorem executeTrade_valid_success (s : Store) (aid : String) (a : TradeAction)
    (ag : Agent) (mk : Market)
    (hval : validateTrade s aid a = none)
    (hag : getAgent s aid = some ag) (hmk : getMarket s a.market_id = some mk)
    (hpr : ¬ (a.action = TAction.BUY ∧ sidePrice mk a.side > a.max_price)) :
    (executeTrade s aid a).2.success = true := by
  unfold executeTrade
  rw [hval]
  simp only []
  rw [hag, hmk]
  simp only []
  rw [if_neg hpr]

/-- simulateTrade on a BUY into an empty (agent, market, side) slot appends
a fresh position at the execution price. -/
theorem simulateTrade_buy_positions_new (s : Store) (ag : Agent) (mk : Market)
    (a : TradeAction) (sh pr : ℚ) (hb : a.action = TAction.BUY)
    (hpos : getPosition s ag.id mk.id a.side = none) :
    (simulateTrade s ag mk a sh pr).positions =
      s.positions ++
        [{ id := s.nextId, agentId := ag.id, marketId := mk.id, side := a.side,
           shares := sh, entryPrice := pr, currentValue := a.size_usd, unrealizedPnl := 0 }] := by
  unfold simulateTrade
  rw [hb]
  simp only []
  rw [show getPosition (updateAgentBalance s ag.id (ag.currentBalance - a.size_usd))
      ag.id mk.id a.side = getPosition s ag.id mk.id a.side from getPosition_ext _ _ rfl _ _ _]
  rw [hpos]
  rfl

/-- simulateTrade on a BUY into an occupied slot recomputes the position's
share count and size-weighted entry price. -/
theorem simulateTrade_buy_positions_upd (s : Store) (ag : Agent) (mk : Market)
    (a : TradeAction) (sh pr : ℚ) (hb : a.action = TAction.BUY) (q : Position)
    (hpos : getPosition s ag.id mk.id a.side = some q) :
    (simulateTrade s ag mk a sh pr).positions =
      s.positions.map (fun r => if r.id == q.id then
        { r with shares := q.shares + sh,
                 entryPrice := (q.shares * q.entryPrice + a.size_usd) / (q.shares + sh),
                 currentValue := (q.shares + sh) * pr } else r) := by
  unfold simulateTrade
  rw [hb]
  simp only []
  rw [show getPosition (updateAgentBalance s ag.id (ag.currentBalance - a.size_usd))
      ag.id mk.id a.side = getPosition s ag.id mk.id a.side from getPosition_ext _ _ rfl _ _ _]
  rw [hpos]
  simp only []
  rfl

/-- simulateTrade on a SELL leaving at most the dust epsilon deletes the
position row. -/
theorem simulateTrade_sell_dust_positions (s : Store) (ag : Agent) (mk : Market)
    (a : TradeAction) (sh pr : ℚ) (hs : a.action = TAction.SELL) (q : Position)
    (hpos : getPosition s ag.id mk.id a.side = some q)
    (hdust : q.shares - a.size_usd / pr ≤ dustEps) :
    (simulateTrade s ag mk a sh pr).positions =
      s.positions.filter (fun r => r.id != q.id) := by
  unfold simulateTrade
  rw [hs]
  simp only []
  rw [show getPosition (updateAgentBalance s ag.id (ag.currentBalance + a.size_usd))
      ag.id mk.id a.side = getPosition s ag.id mk.id a.side from getPosition_ext _ _ rfl _ _ _]
  rw [hpos]
  simp only []
  rw [if_pos hdust]
  rfl

/-- simulateTrade on a BUY debits sizeUsd from the agent's balance. -/
theorem agents_simulateTrade_buy (s : Store) (ag : Agent) (mk : Market)
    (a : TradeAction) (sh pr : ℚ) (hb : a.action = TAction.BUY) :
    (simulateTrade s ag mk a sh pr).agents =
      s.agents.map (fun r => if r.id == ag.id then
        { r with currentBalance := ag.currentBalance - a.size_usd } else r) := by
  unfold simulateTrade
  rw [hb]
  simp only []
  cases getPosition (updateAgentBalance s ag.id (ag.currentBalance - a.size_usd)) ag.id mk.id a.side <;>
    rfl

/-- simulateTrade preserves nonnegative share counts when the injected
share quantity is nonnegative: a SELL's kept remainder exceeds the positive
dust epsilon and a deletion only removes rows. -/
theorem simulateTrade_nonneg (s : Store) (ag : Agent) (mk : Market) (a : TradeAction)
    (sh pr : ℚ) (hps : ∀ p ∈ s.positions, 0 ≤ p.shares) (hsh : 0 ≤ sh) :
    ∀ p ∈ (simulateTrade s ag mk a sh pr).positions, 0 ≤ p.shares := by
  unfold simulateTrade
  cases ha : a.action
  case HOLD => exact hps
  case BUY =>
    simp only []
    cases hpos : getPosition (updateAgentBalance s ag.id (ag.currentBalance - a.size_usd))
        ag.id mk.id a.side with
    | some q =>
      have hq : q ∈ s.positions := getPosition_mem _ _ _ _ q hpos
      intro p hp
      rcases List.mem_map.mp hp with ⟨r, hr, hfr⟩
      by_cases hid : (r.id == q.id) = true
      · rw [if_pos hid] at hfr
        rw [← hfr]
        exact add_nonneg (hps q hq) hsh
      · rw [if_neg hid] at hfr
        rw [← hfr]
        exact hps r hr
    | none =>
      intro p hp
      rcases List.mem_append.mp hp with h | h
      · exact hps p h
      · rw [List.mem_singleton.mp h]
        exact hsh
  case SELL =>
    simp only []
    cases hpos : getPosition (updateAgentBalance s ag.id (ag.currentBalance + a.size_usd))
        ag.id mk.id a.side with
    | some q =>
      simp only []
      by_cases hd : q.shares - a.size_usd / pr ≤ dustEps
      · rw [if_pos hd]
        intro p hp
        exact hps p (List.mem_of_mem_filter hp)
      · rw [if_neg hd]
        intro p hp
        rcases List.mem_map.mp hp with ⟨r, hr, hfr⟩
        by_cases hid : (r.id == q.id) = true
        · rw [if_pos hid] at hfr
          rw [← hfr]
          show (0:ℚ) ≤ q.shares - a.size_usd / pr
          have hlt : dustEps < q.shares - a.size_usd / pr := not_le.mp hd
          have hde : (0:ℚ) < dustEps := by norm_num [dustEps]
          linarith
        · rw [if_neg hid] at hfr
          rw [← hfr]
          exact hps r hr
    | none =>
      intro p hp
      exact hps p hp

/-- executeTrade preserves nonnegative share counts when the action's size
is nonnegative and market prices are nonnegative. -/
theorem executeTrade_nonneg (s : Store) (aid : String) (a : TradeAction)
    (hps : ∀ p ∈ s.positions, 0 ≤ p.shares)
    (hms : ∀ m ∈ s.markets, 0 ≤ m.yesPrice ∧ 0 ≤ m.noPrice)
    (hsz : 0 ≤ a.size_usd) :
    ∀ p ∈ (executeTrade s aid a).1.positions, 0 ≤ p.shares := by
  unfold executeTrade
  cases validateTrade s aid a with
  | some e => exact hps
  | none =>
    cases hag : getAgent s aid with
    | none => cases getMarket s a.market_id <;> exact hps
    | some ag =>
      cases hmk : getMarket s a.market_id with
      | none => exact hps
      | some mk =>
        simp only []
        by_cases hc : a.action = TAction.BUY ∧ sidePrice mk a.side > a.max_price
        · rw [if_pos hc]; exact hps
        · rw [if_neg hc]
          intro p hp
          rw [positions_updateMetrics, positions_updateTradeStatus] at hp
          have hpr0 : 0 ≤ sidePrice mk a.side :=
            sidePrice_nonneg mk a.side (hms mk (getMarket_mem s _ mk hmk))
          refine simulateTrade_nonneg _ ag mk a _ _ ?_ (div_nonneg hsz hpr0) p hp
          exact hps

/-- executeTrade on a valid BUY into an empty slot: the positions table
gains one fresh row at the execution price (the row id reflects that the
pending Trade row consumed one id first). -/
theorem executeTrade_buy_new_positions (s : Store) (aid : String) (a : TradeAction)
    (ag : Agent) (mk : Market)
    (hval : validateTrade s aid a = none)
    (hag : getAgent s aid = some ag) (hmk : getMarket s a.market_id = some mk)
    (hpr : ¬ (a.action = TAction.BUY ∧ sidePrice mk a.side > a.max_price))
    (hb : a.action = TAction.BUY)
    (hpos : getPosition s ag.id mk.id a.side = none) :
    (executeTrade s aid a).1.positions =
      s.positions ++
        [{ id := s.nextId + 1, agentId := ag.id, marketId := mk.id, side := a.side,
           shares := a.size_usd / sidePrice mk a.side, entryPrice := sidePrice mk a.side,
           currentValue := a.size_usd, unrealizedPnl := 0 }] := by
  rw [executeTrade_valid_fst s aid a ag mk hval hag hmk hpr,
    positions_updateMetrics, positions_updateTradeStatus,
    simulateTrade_buy_positions_new
      { s with
        trades := s.trades ++
          [{ id := s.nextId, agentId := aid, marketId := a.market_id,
             action := a.action, side := a.side, sizeUsd := a.size_usd,
             price := sidePrice mk a.side, shares := a.size_usd / sidePrice mk a.side,
             status := TradeStatus.pending, errorMessage := none }],
        nextId := s.nextId + 1 }
      ag mk a (a.size_usd / sidePrice mk a.side) (sidePrice mk a.side) hb hpos]

/-- executeTrade on a valid BUY into an occupied slot: the row's share count
and size-weighted entry price are recomputed. -/
theorem executeTrade_buy_upd_positions (s : Store) (aid : String) (a : TradeAction)
    (ag : Agent) (mk : Market) (q : Position)
    (hval : validateTrade s aid a = none)
    (hag : getAgent s aid = some ag) (hmk : getMarket s a.market_id = some mk)
    (hpr : ¬ (a.action = TAction.BUY ∧ sidePrice mk a.side > a.max_price))
    (hb : a.action = TAction.BUY)
    (hpos : getPosition s ag.id mk.id a.side = some q) :
    (executeTrade s aid a).1.positions =
      s.positions.map (fun r => if r.id == q.id then
        { r with shares := q.shares + a.size_usd / sidePrice mk a.side,
                 entryPrice := (q.shares * q.entryPrice + a.size_usd)
                   / (q.shares + a.size_usd / sidePrice mk a.side),
                 currentValue := (q.shares + a.size_usd / sidePrice mk a.side) * sidePrice mk a.side }
        else r) := by
  rw [executeTrade_valid_fst s aid a ag mk hval hag hmk hpr,
    positions_updateMetrics, positions_updateTradeStatus,
    simulateTrade_buy_positions_upd
      { s with
        trades := s.trades ++
          [{ id := s.nextId, agentId := aid, marketId := a.market_id,
             action := a.action, side := a.side, sizeUsd := a.size_usd,
             price := sidePrice mk a.side, shares := a.size_usd / sidePrice mk a.side,
             status := TradeStatus.pending, errorMessage := none }],
        nextId := s.nextId + 1 }
      ag mk a (a.size_usd / sidePrice mk a.side) (sidePrice mk a.side) hb q hpos]

/-- executeTrade on a valid SELL whose remainder is at most the dust
epsilon: the position row is deleted from the positions table. -/
theorem executeTrade_sell_dust_positions (s : Store) (aid : String) (a : TradeAction)
    (ag : Agent) (mk : Market) (q : Position)
    (hval : validateTrade s aid a = none)
    (hag : getAgent s aid = some ag) (hmk : getMarket s a.market_id = some mk)
    (hpr : ¬ (a.action = TAction.BUY ∧ sidePrice mk a.side > a.max_price))
    (hs : a.action = TAction.SELL)
    (hpos : getPosition s ag.id mk.id a.side = some q)
    (hdust : q.shares - a.size_usd / sidePrice mk a.side ≤ dustEps) :
    (executeTrade s aid a).1.positions =
      s.positions.filter (fun r => r.id != q.id) := by
  rw [executeTrade_valid_fst s aid a ag mk hval hag hmk hpr,
    positions_updateMetrics, positions_updateTradeStatus,
    simulateTrade_sell_dust_positions
      { s with
        trades := s.trades ++
          [{ id := s.nextId, agentId := aid, marketId := a.market_id,
             action := a.action, side := a.side, sizeUsd := a.size_usd,
             price := sidePrice mk a.side, shares := a.size_usd / sidePrice mk a.side,
             status := TradeStatus.pending, errorMessage := none }],
        nextId := s.nextId + 1 }
      ag mk a (a.size_usd / sidePrice mk a.side) (sidePrice mk a.side) hs q hpos hdust]

/-- C7 counterexample: a BUY with size_usd = −10 (which validation accepts:
the balance and cap checks are upper bounds only) is executed successfully
and creates a position with shares = −10 / 0.5 = −20 < 0, refuting "the
stored position's share count is never negative" for arbitrary executed
actions. -/
theorem negative_buy_negative_shares_cex :
    (executeTrade (demoStore 500 (1/2) [] 0) "a1" (demoBuy (-10))).2.success = true ∧
    (getPosition (executeTrade (demoStore 500 (1/2) [] 0) "a1" (demoBuy (-10))).1
      "a1" "m1" "YES").map Position.shares = some ((-10 : ℚ) / (1/2)) ∧
    ((-10 : ℚ) / (1/2) = -20) ∧ ((-20 : ℚ) < 0) := by
  have hval : validateTrade (demoStore 500 (1/2) [] 0) "a1" (demoBuy (-10)) = none := by
    apply validateTrade_buy_none (demoStore 500 (1/2) [] 0) "a1" (demoBuy (-10))
      (demoAgent 500) (demoMarket (1/2)) rfl rfl rfl rfl
    · norm_num [demoAgent, demoBuy]
    · norm_num [demoAgent, demoBuy, maxTradePercent]
    · norm_num [demoMarket, minLiquidity]
  have hpr : ¬ ((demoBuy (-10)).action = TAction.BUY ∧
      sidePrice (demoMarket (1/2)) (demoBuy (-10)).side > (demoBuy (-10)).max_price) := by
    rintro ⟨-, hgt⟩
    rw [show sidePrice (demoMarket (1/2)) (demoBuy (-10)).side = 1/2 from rfl] at hgt
    rw [show (demoBuy (-10 : ℚ)).max_price = 1 from rfl] at hgt
    norm_num at hgt
  refine ⟨executeTrade_valid_success _ _ _ (demoAgent 500) (demoMarket (1/2)) hval rfl rfl hpr,
    ?_, by norm_num, by norm_num⟩
  have hp := executeTrade_buy_new_positions (demoStore 500 (1/2) [] 0) "a1" (demoBuy (-10))
    (demoAgent 500) (demoMarket (1/2)) hval rfl rfl hpr rfl rfl
  unfold getPosition
  rw [hp]
  rfl

/-- The C7 witness's position: 20 shares at entry 0.50 (value $10). -/
def smallPos : Position :=
  { id := 3, agentId := "a1", marketId := "m1", side := "YES",
    shares := 20, entryPrice := 1/2, currentValue := 10, unrealizedPnl := 0 }

/-- C7 (amended): for every sequence of executed BUY/SELL actions with
nonnegative sizeUsd on stores whose market prices are nonnegative, the
stored share counts stay nonnegative; and whenever an executed SELL leaves
at most the dust epsilon (0.001) of shares, the position row is deleted
(no row with its id remains) rather than kept at zero shares. -/
theorem position_shares_nonneg_and_dust_deleted :
    (∀ (acts : List (String × TradeAction)) (s : Store),
      (∀ p ∈ s.positions, 0 ≤ p.shares) →
      (∀ m ∈ s.markets, 0 ≤ m.yesPrice ∧ 0 ≤ m.noPrice) →
      (∀ pr ∈ acts, 0 ≤ pr.2.size_usd) →
      ∀ p ∈ (execSeq s acts).positions, 0 ≤ p.shares) ∧
    (∀ (s : Store) (aid : String) (a : TradeAction) (ag : Agent) (mk : Market) (q : Position),
      a.action = TAction.SELL →
      validateTrade s aid a = none →
      getAgent s aid = some ag → getMarket s a.market_id = some mk →
      getPosition s ag.id mk.id a.side = some q →
      q.shares - a.size_usd / sidePrice mk a.side ≤ dustEps →
      ∀ r ∈ (executeTrade s aid a).1.positions, r.id ≠ q.id) := by
  constructor
  · intro acts
    induction acts with
    | nil => intro s hps hms hsz; exact hps
    | cons pr rest ih =>
      intro s hps hms hsz
      show ∀ p ∈ (execSeq (executeTrade s pr.1 pr.2).1 rest).positions, 0 ≤ p.shares
      apply ih
      · exact executeTrade_nonneg s pr.1 pr.2 hps hms (hsz pr (List.mem_cons_self _ _))
      · intro m hm
        rw [markets_executeTrade] at hm
        exact hms m hm
      · intro x hx
        exact hsz x (List.mem_cons_of_mem _ hx)
  · intro s aid a ag mk q hsell hval hag hmk hpos hdust
    have hpr : ¬ (a.action = TAction.BUY ∧ sidePrice mk a.side > a.max_price) := by
      rintro ⟨hb', -⟩
      rw [hsell] at hb'
      exact TAction.noConfusion hb'
    intro r hr
    rw [executeTrade_sell_dust_positions s aid a ag mk q hval hag hmk hpr hsell hpos hdust] at hr
    have hcond := List.of_mem_filter hr
    simpa using hcond

/-- Witness for C7: a single $10 BUY on a fresh store keeps all share counts
nonnegative, and a SELL of the witness position's full value deletes its
row. -/
theorem position_shares_nonneg_and_dust_deleted_witness :
    (∀ p ∈ (execSeq (demoStore 500 (1/2) [] 0) [("a1", demoBuy 10)]).positions, 0 ≤ p.shares) ∧
    (∀ r ∈ (executeTrade (demoStore 490 (1/2) [smallPos] 4) "a1" (demoSell 10)).1.positions,
      r.id ≠ smallPos.id) := by
  have hval : validateTrade (demoStore 490 (1/2) [smallPos] 4) "a1" (demoSell 10) = none := by
    apply validateTrade_sell_none (demoStore 490 (1/2) [smallPos] 4) "a1" (demoSell 10)
      (demoAgent 490) (demoMarket (1/2)) smallPos rfl rfl rfl rfl
    · norm_num [demoAgent, demoSell, maxTradePercent]
    · norm_num [demoMarket, minLiquidity]
    · rfl
    · norm_num [smallPos, demoSell]
  constructor
  · apply position_shares_nonneg_and_dust_deleted.1 [("a1", demoBuy 10)] (demoStore 500 (1/2) [] 0)
    · intro p hp
      exact absurd hp (List.not_mem_nil p)
    · intro m hm
      rw [List.mem_singleton.mp hm]
      constructor <;> norm_num [demoMarket]
    · intro x hx
      rw [List.mem_singleton.mp hx]
      norm_num [demoBuy]
  · apply position_shares_nonneg_and_dust_deleted.2 (demoStore 490 (1/2) [smallPos] 4) "a1"
      (demoSell 10) (demoAgent 490) (demoMarket (1/2)) smallPos rfl hval rfl rfl rfl
    rw [show sidePrice (demoMarket (1/2)) (demoSell 10).side = 1/2 from rfl]
    norm_num [smallPos, demoSell, dustEps]

/-- executeTrade on a valid BUY debits sizeUsd from the agent's balance. -/
theorem executeTrade_buy_agents (s : Store) (aid : String) (a : TradeAction)
    (ag : Agent) (mk : Market)
    (hval : validateTrade s aid a = none)
    (hag : getAgent s aid = some ag) (hmk : getMarket s a.market_id = some mk)
    (hpr : ¬ (a.action = TAction.BUY ∧ sidePrice mk a.side > a.max_price))
    (hb : a.action = TAction.BUY) :
    (executeTrade s aid a).1.agents =
      s.agents.map (fun r => if r.id == ag.id then
        { r with currentBalance := ag.currentBalance - a.size_usd } else r) := by
  rw [executeTrade_valid_fst s aid a ag mk hval hag hmk hpr,
    agents_updateMetrics, agents_updateTradeStatus,
    agents_simulateTrade_buy
      { s with
        trades := s.trades ++
          [{ id := s.nextId, agentId := aid, marketId := a.market_id,
             action := a.action, side := a.side, sizeUsd := a.size_usd,
             price := sidePrice mk a.side, shares := a.size_usd / sidePrice mk a.side,
             status := TradeStatus.pending, errorMessage := none }],
        nextId := s.nextId + 1 }
      ag mk a (a.size_usd / sidePrice mk a.side) (sidePrice mk a.side) hb]

/-- The position created by the first BUY of C3's two-BUY scenario. -/
def firstBuyPos (a p1 : ℚ) : Position :=
  { id := 1, agentId := "a1", marketId := "m1", side := "YES",
    shares := a / p1, entryPrice := p1, currentValue := a, unrealizedPnl := 0 }

/-- The agent row after C3's first BUY: $a debited. -/
def debitedAgent (a : ℚ) : Agent :=
  { id := "a1", initialBalance := 500, currentBalance := 500 - a, isActive := true }

/-- The market row after C3's price refresh to p2. -/
def secondMarket (p1 p2 : ℚ) : Market :=
  { id := "m1", yesPrice := p2, noPrice := 1 - p1, liquidity := 5000, isResolved := false }

/-- C3's two-BUY composition: a first BUY of $a at market price p1, the
per-cycle market refresh moving the YES price to p2, then a second BUY of
$b into the same (agent, market, side) slot. -/
def twoBuyResult (a b p1 p2 : ℚ) : Store :=
  (executeTrade (setYesPrice (executeTrade (demoStore 500 p1 [] 0) "a1" (demoBuy a)).1 "m1" p2)
    "a1" (demoBuy b)).1

/-- The position stored after C3's two BUYs: shares a/p1 + b/p2 and entry
price (a/p1·p1 + b) / (a/p1 + b/p2) — total cost over total shares. -/
theorem twoBuy_position_fields (a b p1 p2 : ℚ) (ha : 0 < a) (ha50 : a ≤ 50)
    (hb : 0 < b) (hb50 : b ≤ 50) (hp1 : 0 < p1) (hp1le : p1 ≤ 1)
    (hp2 : 0 < p2) (hp2le : p2 ≤ 1) :
    getPosition (twoBuyResult a b p1 p2) "a1" "m1" "YES" =
      some { firstBuyPos a p1 with
             shares := a / p1 + b / p2,
             entryPrice := ((a / p1) * p1 + b) / (a / p1 + b / p2),
             currentValue := (a / p1 + b / p2) * p2 } := by
  have hval1 : validateTrade (demoStore 500 p1 [] 0) "a1" (demoBuy a) = none := by
    apply validateTrade_buy_none (demoStore 500 p1 [] 0) "a1" (demoBuy a)
      (demoAgent 500) (demoMarket p1) rfl rfl rfl rfl
    · show a ≤ (500:ℚ)
      linarith
    · show a ≤ (500:ℚ) * maxTradePercent
      rw [show (500:ℚ) * maxTradePercent = 50 by norm_num [maxTradePercent]]
      exact ha50
    · show minLiquidity ≤ (5000:ℚ)
      norm_num [minLiquidity]
  have hpr1 : ¬ ((demoBuy a).action = TAction.BUY ∧
      sidePrice (demoMarket p1) (demoBuy a).side > (demoBuy a).max_price) := by
    rintro ⟨-, hgt⟩
    rw [show sidePrice (demoMarket p1) (demoBuy a).side = p1 from rfl] at hgt
    rw [show (demoBuy a).max_price = 1 from rfl] at hgt
    linarith
  unfold twoBuyResult
  set s1 : Store := (executeTrade (demoStore 500 p1 [] 0) "a1" (demoBuy a)).1 with hs1d
  have hpos1 : s1.positions = [firstBuyPos a p1] := by
    rw [hs1d, executeTrade_buy_new_positions (demoStore 500 p1 [] 0) "a1" (demoBuy a)
      (demoAgent 500) (demoMarket p1) hval1 rfl rfl hpr1 rfl rfl]
    rfl
  have hagents1 : s1.agents = [debitedAgent a] := by
    rw [hs1d, executeTrade_buy_agents (demoStore 500 p1 [] 0) "a1" (demoBuy a)
      (demoAgent 500) (demoMarket p1) hval1 rfl rfl hpr1 rfl]
    rfl
  have hmkts1 : s1.markets = [demoMarket p1] := by
    rw [hs1d]
    exact markets_executeTrade _ _ _
  set s2 : Store := setYesPrice s1 "m1" p2 with hs2d
  have hmkts2 : s2.markets = [secondMarket p1 p2] := by
    rw [hs2d]
    show s1.markets.map _ = _
    rw [hmkts1]
    rfl
  have hpos2 : s2.positions = [firstBuyPos a p1] := by
    rw [hs2d, positions_setYesPrice, hpos1]
  have hagents2 : s2.agents = [debitedAgent a] := by
    rw [hs2d, agents_setYesPrice, hagents1]
  have hag2 : getAgent s2 "a1" = some (debitedAgent a) := by
    unfold getAgent
    rw [hagents2]
    rfl
  have hmk2 : getMarket s2 "m1" = some (secondMarket p1 p2) := by
    unfold getMarket
    rw [hmkts2]
    rfl
  have hgp2 : getPosition s2 "a1" "m1" "YES" = some (firstBuyPos a p1) := by
    unfold getPosition
    rw [hpos2]
    rfl
  have hval2 : validateTrade s2 "a1" (demoBuy b) = none := by
    apply validateTrade_buy_none s2 "a1" (demoBuy b) (debitedAgent a) (secondMarket p1 p2)
      rfl hag2 hmk2 rfl
    · show b ≤ 500 - a
      linarith
    · show b ≤ (500:ℚ) * maxTradePercent
      rw [show (500:ℚ) * maxTradePercent = 50 by norm_num [maxTradePercent]]
      exact hb50
    · show minLiquidity ≤ (5000:ℚ)
      norm_num [minLiquidity]
  have hpr2 : ¬ ((demoBuy b).action = TAction.BUY ∧
      sidePrice (secondMarket p1 p2) (demoBuy b).side > (demoBuy b).max_price) := by
    rintro ⟨-, hgt⟩
    rw [show sidePrice (secondMarket p1 p2) (demoBuy b).side = p2 from rfl] at hgt
    rw [show (demoBuy b).max_price = 1 from rfl] at hgt
    linarith
  have hfinal : (executeTrade s2 "a1" (demoBuy b)).1.positions =
      [{ firstBuyPos a p1 with
         shares := a / p1 + b / p2,
         entryPrice := ((a / p1) * p1 + b) / (a / p1 + b / p2),
         currentValue := (a / p1 + b / p2) * p2 }] := by
    rw [executeTrade_buy_upd_positions s2 "a1" (demoBuy b) (debitedAgent a)
      (secondMarket p1 p2) (firstBuyPos a p1) hval2 hag2 hmk2 hpr2 rfl hgp2]
    rw [hpos2]
    rfl
  unfold getPosition
  rw [hfinal]
  rfl

/-- C3 counterexample: two BUYs of $10 each at prices 0.20 then 0.50 leave
an entry price of 2/7 ≈ 0.2857, while the claimed formula
(a·p1 + b·p2)/(a + b) gives 7/20 = 0.35 — a discrepancy of 9/140 ≈ 0.064,
far outside any floating tolerance. -/
theorem weighted_entry_arithmetic_cex :
    (getPosition (twoBuyResult 10 10 (1/5) (1/2)) "a1" "m1" "YES").map Position.entryPrice
      = some (2/7) ∧
    ((10 : ℚ) * (1/5) + 10 * (1/2)) / (10 + 10) = 7/20 ∧
    ((2 : ℚ)/7) < 7/20 ∧
    |(2 : ℚ)/7 - 7/20| > 1/1000 := by
  refine ⟨?_, by norm_num, by norm_num, ?_⟩
  · rw [twoBuy_position_fields 10 10 (1/5) (1/2) (by norm_num) (by norm_num) (by norm_num)
      (by norm_num) (by norm_num) (by norm_num) (by norm_num) (by norm_num)]
    show some ((((10:ℚ) / (1/5)) * (1/5) + 10) / (10 / (1/5) + 10 / (1/2))) = some (2/7)
    norm_num
  · rw [show |(2 : ℚ)/7 - 7/20| = 9/140 by rw [abs_of_nonpos] <;> norm_num]
    norm_num

/-- C3 (amended): after two executed BUYs of USD sizes a and b at prices p1
and p2 into the same (agent, market, side) slot, the stored entry price is
total cost over total shares, (a + b) / (a/p1 + b/p2) — the size-weighted
harmonic combination — not the arithmetic mean (a·p1 + b·p2)/(a + b), which
it equals only when p1 = p2. -/
theorem weighted_entry_price_two_buys (a b p1 p2 : ℚ) (ha : 0 < a) (ha50 : a ≤ 50)
    (hb : 0 < b) (hb50 : b ≤ 50) (hp1 : 0 < p1) (hp1le : p1 ≤ 1)
    (hp2 : 0 < p2) (hp2le : p2 ≤ 1) :
    (getPosition (twoBuyResult a b p1 p2) "a1" "m1" "YES").map Position.shares
      = some (a / p1 + b / p2) ∧
    (getPosition (twoBuyResult a b p1 p2) "a1" "m1" "YES").map Position.entryPrice
      = some ((a + b) / (a / p1 + b / p2)) := by
  rw [twoBuy_position_fields a b p1 p2 ha ha50 hb hb50 hp1 hp1le hp2 hp2le]
  refine ⟨rfl, ?_⟩
  show some (((a / p1) * p1 + b) / (a / p1 + b / p2)) = some ((a + b) / (a / p1 + b / p2))
  rw [div_mul_cancel₀ a (ne_of_gt hp1)]

/-- Witness for C3's amended theorem: sizes $20 and $10 at prices 0.25 and
0.50 give shares 100 and entry price 30/100. -/
theorem weighted_entry_price_two_buys_witness :
    (getPosition (twoBuyResult 20 10 (1/4) (1/2)) "a1" "m1" "YES").map Position.shares
      = some ((20 : ℚ) / (1/4) + 10 / (1/2)) ∧
    (getPosition (twoBuyResult 20 10 (1/4) (1/2)) "a1" "m1" "YES").map Position.entryPrice
      = some (((20 : ℚ) + 10) / (20 / (1/4) + 10 / (1/2))) :=
  weighted_entry_price_two_buys 20 10 (1/4) (1/2) (by norm_num) (by norm_num) (by norm_num)
    (by norm_num) (by norm_num) (by norm_num) (by norm_num) (by norm_num)

end Fourcast
